import Mathlib

/-!
Verification of the Asterisk Test trial-analysis core (`asterisk_trial.py` and
its collaborators) against its natural-language specification.

Conventions of the embedding:

* Machine floats are embedded as exact rationals (`ℚ`); the numeric claims under
  scrutiny concern arithmetic structure (which column is scaled by what, which
  rows a quantile filter keeps, which index a path is truncated at), none of
  which depends on rounding error.
* Euclidean distances appear in the source only through comparisons (`<` a
  threshold, argmin) and through equalities between distances.  Since `sqrt` is
  strictly monotone on nonnegative reals, every such comparison or equality
  holds for the distances iff it holds for their squares, so distances are
  represented throughout by their squares (`dist2`); thresholds are squared
  accordingly (0.1 becomes 1/100).
* Fallible Python code (indexing that can raise, `None` subscripting, the
  per-metric `try/except` blocks) is embedded with `Option`/`Except`: a `none`
  or `.error` result models a raised exception.
* The modules `asterisk_plotting` and `asterisk_calculations` are referenced by
  the trial code but their sources are not part of this repository snapshot;
  the functions taken from them (`get_direction`, `narrow_target`,
  `t_distance`, `angle_between`, the metric calculators) are modelled from the
  specification, each marked `Modelled from the spec:` in its doc comment.
  `angle_between` (an arccos, not expressible in ℚ) is kept abstract: theorems
  that need it quantify over any angle function whose range is the spec's
  [0, 180] degrees.
-/

/-! ## Rounding

pandas `DataFrame.round(4)` rounds every entry to 4 decimal digits with
round-half-to-even tie-breaking (numpy semantics). -/

/-- Round a rational to the nearest integer, ties to the even integer
(numpy/pandas rounding). -/
def roundHalfEven (q : ℚ) : ℤ :=
  let f := ⌊q⌋
  let frac := q - f
  if frac < 1/2 then f
  else if 1/2 < frac then f + 1
  else if f % 2 = 0 then f else f + 1

/-- Round a rational to 4 decimal digits, ties to even (`df.round(4)` on one
entry). -/
def round4 (q : ℚ) : ℚ := (roundHalfEven (q * 10000) : ℚ) / 10000

/-! ## Data model

One row of the raw pose table, after `df.set_index("frame")`: the remaining
columns, in the order the source's positional scale/normalize vectors assume
(`asterisk_trial.py` line 124): pitch, rmag, roll, tmag, x, y, yaw, z. -/

structure RawRow where
  pitch : ℚ
  rmag : ℚ
  roll : ℚ
  tmag : ℚ
  x : ℚ
  y : ℚ
  yaw : ℚ
  z : ℚ
deriving DecidableEq

/-- `ast_hand_info.HandInfo`: name plus span/depth normalization divisors. -/
structure HandInfo where
  hand_name : String
  span : ℚ
  depth : ℚ
deriving DecidableEq

/-! ## Trial Conditioner (`AsteriskTrialData._condition_df`) -/

/-- `df * [1., 1., 1., 1000., 1000., 1000., 1., 1000.]`: meters to millimeters
on the translational columns tmag, x, y, z. -/
def scaleRow (r : RawRow) : RawRow :=
  { r with tmag := r.tmag * 1000, x := r.x * 1000, y := r.y * 1000, z := r.z * 1000 }

/-- `df / [1., 1., 1., 1., span, depth, 1., 1.]`: normalize x by hand span and
y by hand depth; every other column is divided by 1. -/
def normRow (h : HandInfo) (r : RawRow) : RawRow :=
  { r with x := r.x / h.span, y := r.y / h.depth }

/-- `df.round(4)` applied to one row: every column rounded to 4 decimals. -/
def round4Row (r : RawRow) : RawRow :=
  ⟨round4 r.pitch, round4 r.rmag, round4 r.roll, round4 r.tmag,
   round4 r.x, round4 r.y, round4 r.yaw, round4 r.z⟩

/-- pandas `Series.quantile(q)` with the default linear interpolation: on the
ascending sorted values v₀ … v_{n-1}, the quantile is
v_lo + (h - lo) * (v_{lo+1} - v_lo) where h = q*(n-1) and lo = ⌊h⌋.
(The empty-list case is unreachable in the conditioner, which only quantiles
tables of more than 10 rows.) -/
def quantile (q : ℚ) (xs : List ℚ) : ℚ :=
  let sorted := xs.mergeSort (· ≤ ·)
  if sorted.length = 0 then 0
  else
    let h : ℚ := q * ((sorted.length : ℚ) - 1)
    let lo : ℕ := (⌊h⌋).toNat
    let v1 := sorted.getD lo 0
    let v2 := sorted.getD (lo + 1) v1
    v1 + (h - (⌊h⌋ : ℚ)) * (v2 - v1)

/-- One pass of `asterisk_trial.py` lines 145-147: compute the column's 98th
percentile on the current table and keep the rows whose value in that column
is strictly below it (`df = df[(df[col] < q_hi)]`). -/
def outlierPass (get : RawRow → ℚ) (rows : List RawRow) : List RawRow :=
  let q_hi := quantile (98/100) (rows.map get)
  rows.filter (fun r => get r < q_hi)

/-- Lines 141-147: outlier removal, gated on more than 10 rows, sequentially
over the columns x, then y, then rmag, each pass on the already-filtered
table. -/
def remove_outliers (rows : List RawRow) : List RawRow :=
  if rows.length > 10 then
    outlierPass RawRow.rmag (outlierPass RawRow.y (outlierPass RawRow.x rows))
  else rows

/-- `AsteriskTrialData._condition_df`: scale meters to millimeters; if
`norm_data`, normalize x/y by span/depth and round to 4 decimals; remove
outliers (gated on table size); final round to 4 decimals. -/
def condition_df (h : HandInfo) (norm_data : Bool) (rows : List RawRow) : List RawRow :=
  let rows1 := rows.map scaleRow
  let rows2 := if norm_data then rows1.map (fun r => round4Row (normRow h r)) else rows1
  (remove_outliers rows2).map round4Row

/-! ## Geometry / Reference-Path Library -/

/-- A 2-D point. -/
abbrev Pt := ℚ × ℚ

/-- Modelled from the spec: the planar Euclidean distance primitive
(`AsteriskCalculations.t_distance`, whose source module is not in this
repository snapshot), represented by its square.  All uses in the trial code
are comparisons or equalities between distances, which `sqrt` (strictly
monotone on nonnegatives) transports between distances and squared
distances. -/
def dist2 (p q : Pt) : ℚ := (p.1 - q.1) * (p.1 - q.1) + (p.2 - q.2) * (p.2 - q.2)

/-- `np.linspace(0, 0.5, n)`: n evenly spaced samples from 0 to the fixed
maximum radius 0.5. -/
def linspace05 (n : ℕ) : List ℚ :=
  (List.range n).map (fun i => (1/2) * (i : ℚ) / ((n : ℚ) - 1))

/-- Modelled from the spec: `AsteriskPlotting.get_direction` (module not in
this repository snapshot): the ideal path for each of the 8 direction codes,
a line from the origin sampled at `n_samples` evenly spaced points, with
a = +y, b = +x+y, c = +x, d = +x-y, e = -y, f = -x-y, g = -x, h = -x+y
(matching the in-repository analogues `AsteriskHandData.straight/diagonal`).
Unknown codes have no ideal path (`none`). -/
def get_direction (dir : String) (n_samples : ℕ) : Option (List Pt) :=
  let v := linspace05 n_samples
  let zeros := List.replicate n_samples (0 : ℚ)
  let negv := v.map (fun q => -q)
  if dir = "a" then some (zeros.zip v)
  else if dir = "b" then some (v.zip v)
  else if dir = "c" then some (v.zip zeros)
  else if dir = "d" then some (v.zip negv)
  else if dir = "e" then some (zeros.zip negv)
  else if dir = "f" then some (negv.zip negv)
  else if dir = "g" then some (negv.zip zeros)
  else if dir = "h" then some (negv.zip v)
  else none

/-- The running argmin scan: `acc` is the best (index, squared distance) seen
so far; a strictly smaller distance replaces it, so the first minimizer
wins. -/
def narrowAux (p : Pt) : List Pt → ℕ → ℕ × ℚ → ℕ × ℚ
  | [], _, acc => acc
  | q :: qs, i, acc =>
    if dist2 p q < acc.2 then narrowAux p qs (i + 1) (i, dist2 p q)
    else narrowAux p qs (i + 1) acc

/-- Modelled from the spec: `AsteriskCalculations.narrow_target` (module not
in this repository snapshot): the index into the ideal path of the point
closest in Euclidean distance to the trajectory's last pose (first such index
on ties, as `np.argmin`). -/
def narrow_target (p : Pt) (line : List Pt) : ℕ :=
  match line with
  | [] => 0
  | q :: qs => (narrowAux p qs 1 (0, dist2 p q)).1

/-! ## Trial trajectory rows (`self.poses`, columns x, y, rmag) -/

structure Pose where
  x : ℚ
  y : ℚ
  rmag : ℚ
deriving DecidableEq

/-- `AsteriskTrialData.generate_target_line`: build the 100-sample ideal path
for the trial's direction, find the narrow-target index from the last object
pose, and truncate.  `none` models a raised exception: empty table
(`poses.tail(1).to_numpy()[0]` raises IndexError), an unknown direction code,
or `target_line[k+1]` out of bounds.  Note the source truncates with the
end-exclusive slice `target_line[:target_line_length]` and measures the
returned distance to `target_line[target_line_length + 1]`. -/
def generate_target_line (dir : String) (poses : List Pose) (n_samples : ℕ) :
    Option (List Pt × ℚ) :=
  match get_direction dir n_samples with
  | none => none
  | some target_line =>
    match poses.getLast? with
    | none => none
    | some last =>
      let k := narrow_target (last.x, last.y) target_line
      if k ≠ 0 then
        match target_line[k + 1]? with
        | none => none
        | some pt => some (target_line.take k, dist2 (0, 0) pt)
      else
        match target_line[1]? with
        | none => none
        | some pt => some (target_line.take 2, dist2 (0, 0) pt)

/-- `AsteriskTrialData.generate_target_rot` at construction time (the trial is
never filtered during `__init__`, so the unfiltered rmag column is read). -/
def generate_target_rot (trial_rotation : String) (poses : List Pose) : List ℚ :=
  if trial_rotation = "cw" ∨ trial_rotation = "ccw" then
    match poses.getLast? with
    | none => []
    | some p => [p.rmag]
  else if trial_rotation = "p15" ∨ trial_rotation = "m15" then [15]
  else [0]

/-! ## Deviation Screener (`AsteriskTrialData.assess_path_deviation`) -/

/-- The loop body of `assess_path_deviation` over the zipped x/y point lists
(already shifted past the first point): skip points at the origin, skip points
of magnitude below 0.1 (squared: below 1/100), and return true at the first
point whose angle to the target's terminal point leaves [-threshold,
threshold]. -/
def deviation_loop (angle : Pt → Pt → ℚ) (lastT : Pt) (threshold : ℚ) :
    List (ℚ × ℚ) → Bool
  | [] => false
  | (x, y) :: rest =>
    if x = 0 ∧ y = 0 then deviation_loop angle lastT threshold rest
    else if x * x + y * y < 1/100 then deviation_loop angle lastT threshold rest
    else if threshold < angle lastT (x, y) ∨ angle lastT (x, y) < -threshold then true
    else deviation_loop angle lastT threshold rest

/-- `AsteriskTrialData.assess_path_deviation`: `none` models the IndexError of
`self.target_line[-1]` on an empty target line.  The screen walks
`zip(path_x[1:], path_y[1:])`.  The angle primitive
(`AsteriskCalculations.angle_between`, module not in this repository snapshot;
modelled from the spec as an undirected angle in degrees in [0, 180]) is an
abstract parameter. -/
def assess_path_deviation (angle : Pt → Pt → ℚ) (target_line : List Pt)
    (path_x path_y : List ℚ) (threshold : ℚ) : Option Bool :=
  match target_line.getLast? with
  | none => none
  | some lastT => some (deviation_loop angle lastT threshold (path_x.tail.zip path_y.tail))

/-! ## Metrics Engine (`AsteriskTrialData.update_all_metrics`)

The metric calculators live in `asterisk_calculations`, whose source is not in
this repository snapshot; what is in the repository is the orchestration: which
calls are wrapped in which `except` clause and what sentinel each substitutes.
The calculators are therefore an oracle parameter: each one either returns a
value or raises an exception of some kind. -/

/-- The Python exception kinds distinguished by the `except` clauses of
`update_all_metrics`. -/
inductive Exc where
  | runtimeWarning
  | indexError
  | other
deriving DecidableEq

/-- Outcomes of the five external metric calculators for one trial.
`max_error` is a function of the arc length it is handed
(`acalc.calc_max_error(self, arc_len)`). -/
structure MetricOracle where
  frechet : Except Exc (ℚ × ℚ)
  mvt_efficiency : Except Exc (ℚ × ℚ)
  max_error : ℚ → Except Exc ℚ
  area_btwn : Except Exc ℚ
  max_area_region : Except Exc (ℚ × ℚ)

/-- `except E:` for one specific exception class: a raised exception of
exactly kind `k` is replaced by the sentinel, any other kind propagates. -/
def catchOnly (k : Exc) (r : Except Exc α) (sentinel : α) : Except Exc α :=
  match r with
  | .ok v => .ok v
  | .error e => if e = k then .ok sentinel else .error e

/-- A bare `except:`: any raised exception is replaced by the sentinel. -/
def catchAll (r : Except Exc α) (sentinel : α) : Except Exc α :=
  match r with
  | .ok v => .ok v
  | .error _ => .ok sentinel

/-- A metric-record value: the trial name (a string) or a number. -/
inductive MVal where
  | str (s : String)
  | num (q : ℚ)
deriving DecidableEq

/-- `AsteriskTrialData.update_all_metrics`: the Frechet-distance call is not
wrapped in any `try`; movement efficiency and max error catch only
RuntimeWarning (sentinels -1 and 0), area-between catches everything
(sentinel -1), max-area-region catches only IndexError (sentinels -1).  The
record is the source's `metric_dict` in its written key order. -/
def update_all_metrics (name : String) (dist : ℚ) (o : MetricOracle) :
    Except Exc (List (String × MVal)) := do
  let (t_fd, r_fd) ← o.frechet
  let (mvt_eff, arc_len) ← catchOnly .runtimeWarning o.mvt_efficiency (-1, -1)
  let max_err ← catchOnly .runtimeWarning (o.max_error arc_len) 0
  let area_btwn ← catchAll o.area_btwn (-1)
  let (max_a_reg, max_a_loc) ← catchOnly .indexError o.max_area_region (-1, -1)
  pure [("trial", .str name), ("dist", .num dist),
        ("t_fd", .num t_fd), ("r_fd", .num r_fd),
        ("max_err", .num max_err), ("mvt_eff", .num mvt_eff),
        ("arc_len", .num arc_len), ("area_btwn", .num area_btwn),
        ("max_a_reg", .num max_a_reg), ("max_a_loc", .num max_a_loc)]

/-! ## Pose accessors (`get_poses`, `moving_average`) -/

/-- The trial's pose table: raw columns x, y, rmag (entries `none` model NaN)
and the filtered columns, present only after `moving_average` has run
(accessing an absent column would raise a KeyError). -/
structure PosesDf where
  x : List (Option ℚ)
  y : List (Option ℚ)
  rmag : List (Option ℚ)
  f_x : Option (List (Option ℚ))
  f_y : Option (List (Option ℚ))
  f_rmag : Option (List (Option ℚ))
deriving DecidableEq

/-- `pd.Series.to_list(col.dropna())`. -/
def dropna (l : List (Option ℚ)) : List ℚ := l.filterMap id

/-- `AsteriskTrialData.get_poses`: the filtered columns are read only when the
trial has been filtered AND the caller asked for filtered data; otherwise the
raw columns are returned.  Each column is dropna'd and turned into a list. -/
def get_poses (df : PosesDf) (filtered : Bool) (use_filtered : Bool) :
    Option (List ℚ × List ℚ × List ℚ) :=
  if filtered ∧ use_filtered then
    match df.f_x, df.f_y, df.f_rmag with
    | some fx, some fy, some fr => some (dropna fx, dropna fy, dropna fr)
    | _, _, _ => none
  else
    some (dropna df.x, dropna df.y, dropna df.rmag)

/-- pandas `col.rolling(window=w, min_periods=1).mean()`: at index i the mean
of the non-NaN entries among the last w entries up to i (NaN when all are
NaN). -/
def rollingMean (w : ℕ) (l : List (Option ℚ)) : List (Option ℚ) :=
  (List.range l.length).map (fun i =>
    let window := dropna ((l.take (i + 1)).drop (i + 1 - w))
    if window.length = 0 then none else some (window.sum / (window.length : ℚ)))

def round4Opt (l : List (Option ℚ)) : List (Option ℚ) := l.map (Option.map round4)

/-- `AsteriskTrialData.moving_average`: write the three rolling means into the
`f_` columns (overwriting any previous ones) and round the whole table to 4
decimals. -/
def moving_average (df : PosesDf) (w : ℕ) : PosesDf :=
  { x := round4Opt df.x, y := round4Opt df.y, rmag := round4Opt df.rmag,
    f_x := some (round4Opt (rollingMean w df.x)),
    f_y := some (round4Opt (rollingMean w df.y)),
    f_rmag := some (round4Opt (rollingMean w df.rmag)) }

/-! ## Trial identity encoding (`__init__` name parsing, `generate_name`) -/

/-- Python `str.split(sep)` for a one-character separator, on the character
list of the string: every (possibly empty) chunk between occurrences of the
separator, in order.  Never returns the empty list. -/
def splitCh (c : Char) : List Char → List (List Char)
  | [] => [[]]
  | x :: xs =>
    let r := splitCh c xs
    if x = c then [] :: r
    else (x :: r.headD []) :: r.tail

/-- Python `str.split(sep)` for a one-character separator. -/
def pySplit (s : String) (c : Char) : List String :=
  (splitCh c s.data).map String.mk

/-- Lines 38-39 of `asterisk_trial.py`:
`s, h, t, r, e = file_name.split("_"); n, _ = e.split(".")`.  A split of the
wrong arity raises a ValueError, modelled as `none`. -/
def parse_name (fn : String) : Option (String × String × String × String × String) :=
  match pySplit fn '_' with
  | [s, h, t, r, e] =>
    match pySplit e '.' with
    | [n, _ext] => some (s, h, t, r, n)
    | _ => none
  | _ => none

/-- `AsteriskTrialData.generate_name`. -/
def generate_name (s h t r n : String) : String :=
  s ++ "_" ++ h ++ "_" ++ t ++ "_" ++ r ++ "_" ++ n

/-- The external file name of a trial (`save_data`, `_gather_trials`):
`generate_name` plus the `.csv` suffix. -/
def mk_file_name (s h t r n : String) : String :=
  generate_name s h t r n ++ ".csv"

/-! The naming option lists of `asterisk_data_manager.AstNaming.options`. -/

def subjects_options : List String := ["sub1", "sub2", "sub3"]
def hands_options : List String :=
  ["2v2", "2v3", "3v3", "barrett", "basic", "m2active", "m2stiff", "modelvf"]
def translations_all_options : List String :=
  ["a", "b", "c", "d", "e", "f", "g", "h", "n"]
def rotations_options : List String := ["n", "m15", "p15"]
def rotations_n_trans_options : List String := ["cw", "ccw"]
def numbers_options : List String := ["1", "2", "3", "4", "5"]

/-- The 8 direction codes that have an ideal path. -/
def direction_codes : List String := ["a", "b", "c", "d", "e", "f", "g", "h"]

/-! ## Trial Entity (`AsteriskTrialData.__init__` with a file name) -/

/-- The Python exceptions that `__init__` can raise (construction crashes). -/
inductive PyErr where
  | valueError
  | typeError
  | indexError
  | keyError
  | metricExc (e : Exc)
deriving DecidableEq

/-- `AsteriskTrialData._read_file`: the whole read-and-condition block is
wrapped in a catch-all `except` that logs and returns `None`; `raw = none`
models a source table that cannot be parsed (`pd.read_csv` raises). -/
def read_file (h : HandInfo) (norm_data : Bool) (raw : Option (List RawRow)) :
    Option (List RawRow) :=
  match raw with
  | none => none
  | some df => some (condition_df h norm_data df)

/-- The state of a constructed trial. -/
structure AsteriskTrialData where
  subject : String
  hand : HandInfo
  trial_translation : String
  trial_rotation : String
  trial_num : String
  poses : PosesDf
  filtered : Bool
  window_size : ℕ
  target_line : List Pt
  target_rotation : List ℚ
  total_distance : ℚ
  metrics : Option (List (String × MVal))
  labels : List String
deriving DecidableEq

/-- `AsteriskTrialData.__init__` called with a file name, lines 37-83:
parse the identity from the name (ValueError on wrong arity); read and
condition the table; subscript the result with `[["x", "y", "rmag"]]`
(a TypeError when `_read_file` returned None); synthesize the target line and
total distance; label `no_mvt` when the total distance is below 0.1 (squared:
1/100) and skip metrics for such trials; screen for path deviation
(advisory label); finally compute all metrics when `do_metrics` is set, poses
are present and the trial is not labeled `no_mvt`.  `span`/`depth` stand for
the `.hand_dimensions` entry of the file's hand code, `angle` for
`acalc.angle_between`, `o` for the external metric calculators.
`total_distance` holds the squared distance (see the header note). -/
def construct (file_name : String) (raw : Option (List RawRow)) (span depth : ℚ)
    (angle : Pt → Pt → ℚ) (o : MetricOracle) (do_metrics : Bool) (norm_data : Bool) :
    Except PyErr AsteriskTrialData := do
  let (s, h, t, r, n) ← match parse_name file_name with
    | none => Except.error PyErr.valueError
    | some q => Except.ok q
  let hand : HandInfo := ⟨h, span, depth⟩
  let data := read_file hand norm_data raw
  -- self.poses = data[["x", "y", "rmag"]] -- raises TypeError when data is None
  let rows ← match data with
    | none => Except.error PyErr.typeError
    | some d => Except.ok d
  let posesRows : List Pose := rows.map (fun rr => ⟨rr.x, rr.y, rr.rmag⟩)
  let posesDf : PosesDf :=
    ⟨posesRows.map (fun p => some p.x), posesRows.map (fun p => some p.y),
     posesRows.map (fun p => some p.rmag), none, none, none⟩
  let tl ← match generate_target_line t posesRows 100 with
    | none => Except.error PyErr.indexError
    | some v => Except.ok v
  let target_rotation := generate_target_rot r posesRows
  let labels0 : List String := if tl.2 < 1/100 then ["no_mvt"] else []
  let gp ← match get_poses posesDf false true with
    | none => Except.error PyErr.keyError
    | some v => Except.ok v
  let dev ← match assess_path_deviation angle tl.1 gp.1 gp.2.1 40 with
    | none => Except.error PyErr.indexError
    | some b => Except.ok b
  let labels1 := if dev then labels0 ++ ["deviation"] else labels0
  -- if do_metrics and self.poses is not None and "no_mvt" not in self.labels
  -- (poses is necessarily non-None on this path: a None would have raised above)
  let metrics ← if do_metrics ∧ "no_mvt" ∉ labels1 then
      match update_all_metrics (generate_name s h t r n) tl.2 o with
      | .error e => Except.error (PyErr.metricExc e)
      | .ok d => Except.ok (some d)
    else Except.ok none
  Except.ok
    { subject := s, hand := hand, trial_translation := t, trial_rotation := r,
      trial_num := n, poses := posesDf, filtered := false, window_size := 0,
      target_line := tl.1, target_rotation := target_rotation,
      total_distance := tl.2, metrics := metrics, labels := labels1 }

/-- A metric oracle on which every external calculator succeeds. -/
def oracleOk : MetricOracle := ⟨.ok (0, 0), .ok (1, 1), fun _ => .ok 0, .ok 0, .ok (0, 0)⟩

/-- A default trial value, used to extract the payload of a constructor run
that is known to succeed. -/
def defaultTrial : AsteriskTrialData :=
  ⟨"", ⟨"", 0, 0⟩, "", "", "", ⟨[], [], [], none, none, none⟩, false, 0,
   [], [], 0, none, []⟩

/-- The outcome of one external metric calculator either succeeded or raised
an exception of exactly the kind the surrounding `except` clause catches. -/
def okOr (k : Exc) (r : Except Exc α) : Prop :=
  match r with
  | .ok _ => True
  | .error e => e = k

/-- The value a guarded metric computation leaves behind: the calculator's
result on success, the sentinel when it raised. -/
def resolveD (r : Except Exc α) (s : α) : α :=
  match r with
  | .ok v => v
  | .error _ => s

def trialC6 : AsteriskTrialData :=
  ((construct "sub1_2v2_c_n_1.csv" (some [⟨0, 0, 0, 0, 1/10000, 0, 0, 0⟩]) 1 1
      (fun _ _ => 0) oracleOk true true).toOption).getD defaultTrial

def trialC7 : AsteriskTrialData :=
  ((construct "sub1_2v2_c_n_1.csv"
      (some [⟨0, 0, 0, 0, 1/10000, 0, 0, 0⟩, ⟨0, 0, 0, 0, 1/10000, 0, 0, 0⟩]) 1 1
      (fun _ _ => 90) oracleOk true true).toOption).getD defaultTrial

/-! ## Helper lemmas -/

theorem roundHalfEven_intCast (n : ℤ) : roundHalfEven (n : ℚ) = n := by
  simp [roundHalfEven]

theorem round4_round4 (q : ℚ) : round4 (round4 q) = round4 q := by
  unfold round4
  rw [div_mul_cancel₀ _ (by norm_num : (10000 : ℚ) ≠ 0), roundHalfEven_intCast]

theorem round4Row_round4Row (r : RawRow) : round4Row (round4Row r) = round4Row r := by
  simp [round4Row, round4_round4]

theorem outlierPass_subset (get : RawRow → ℚ) (rows : List RawRow) (r : RawRow)
    (h : r ∈ outlierPass get rows) : r ∈ rows := by
  simpa [outlierPass] using (List.mem_filter.mp h).1

theorem remove_outliers_subset (rows : List RawRow) (r : RawRow)
    (h : r ∈ remove_outliers rows) : r ∈ rows := by
  unfold remove_outliers at h
  split at h
  · exact outlierPass_subset _ _ _
      (outlierPass_subset _ _ _ (outlierPass_subset _ _ _ h))
  · exact h

theorem mem_outlierPass (get : RawRow → ℚ) (rs : List RawRow) (r : RawRow) :
    r ∈ outlierPass get rs ↔ r ∈ rs ∧ get r < quantile (98/100) (rs.map get) := by
  simp [outlierPass, List.mem_filter]

theorem head?_take_pos {α : Type} (l : List α) (k : ℕ) (hk : 0 < k) :
    (l.take k).head? = l.head? := by
  cases l with
  | nil => simp
  | cons a as =>
    cases k with
    | zero => omega
    | succ m => simp

/-- C1: the conditioner (`_read_file`) does return a null result and log when
the source table cannot be parsed — but construction does NOT survive it: line
44 of `asterisk_trial.py` subscripts that None (`data[["x", "y", "rmag"]]`),
raising a TypeError, so a trial constructed from an unreadable source file
crashes instead of retaining its identity with a null trajectory.  The dead
guard `self.poses is not None` at line 82 shows the claimed behavior is the
intent; the unguarded subscript is the slip. -/
theorem C1_unreadable_input_crashes_construction :
    read_file ⟨"2v2", 290, 50⟩ true none = none
    ∧ construct "sub1_2v2_a_n_1.csv" none 290 50 (fun _ _ => 0) oracleOk true true
        = .error PyErr.typeError := by
  exact ⟨rfl, by with_unfolding_all rfl⟩

/-- C2 counterexample: the Frechet-distance call of `update_all_metrics` is
wrapped in no `try` at all, so a numerical error raised inside that single
metric aborts the whole computation — no record with sentinel values is
produced, contradicting the claim that the failure of any single metric is
caught at metric granularity. -/
theorem C2_counterexample_frechet_failure_aborts :
    update_all_metrics "sub1_2v2_a_n_1" 0
        ⟨.error .runtimeWarning, .ok (1, 1), fun _ => .ok 0, .ok 0, .ok (0, 0)⟩
      = .error Exc.runtimeWarning := by
  rfl

/-- C4 counterexample: a table of 11 identical rows.  Its x-column 98th
percentile is 1 and no row exceeds it, yet outlier removal discards every
row (the source keeps only rows strictly BELOW the percentile,
`df[(df[col] < q_hi)]`), refuting "discards exactly the rows whose value
exceeds the percentile, keeping every row whose value does not exceed it". -/
theorem C4_counterexample_percentile_boundary :
    remove_outliers (List.replicate 11 ⟨0, 0, 0, 0, 1, 1, 1, 0⟩) = ([] : List RawRow)
    ∧ quantile (98/100)
        ((List.replicate 11 (⟨0, 0, 0, 0, 1, 1, 1, 0⟩ : RawRow)).map RawRow.x) = 1
    ∧ (List.replicate 11 (⟨0, 0, 0, 0, 1, 1, 1, 0⟩ : RawRow)).countP
        (fun r => decide (1 < r.x)) = 0
    ∧ (List.replicate 11 (⟨0, 0, 0, 0, 1, 1, 1, 0⟩ : RawRow)).length = 11 := by
  exact ⟨by with_unfolding_all decide, by with_unfolding_all decide, by with_unfolding_all decide, by with_unfolding_all decide⟩

set_option maxRecDepth 9000 in
/-- C5 counterexample: a trial along direction c whose last pose coincides
with ideal-path point 1.  The narrow-target index is 1, the end-exclusive
slice `target_line[:1]` keeps only the origin, and the synthesized target
path has length 1, refuting the "at least 2 points" invariant (the "first
point is (0,0)" half does hold). -/
theorem C5_counterexample_singleton_target_path :
    generate_target_line "c" [⟨1/198, 0, 0⟩] 100
      = some ([((0 : ℚ), (0 : ℚ))], 1/9801)
    ∧ ([((0 : ℚ), (0 : ℚ))] : List Pt).length = 1 := by
  exact ⟨by with_unfolding_all rfl, rfl⟩

set_option maxRecDepth 9000 in
/-- C3 counterexample: a trial along direction c whose last pose coincides
with ideal-path point 3 (the closest point, at distance 0).  The source
truncates end-exclusively (`target_line[:3]` — the closest point itself is
NOT in the returned path) and returns the distance from the origin to
ideal-path point 4 = (2/99, 0), which differs from the distance to the
truncated path's last point (1/99, 0); both refute the claim's "truncates to
that index inclusive" and "distance to the truncated path's last point". -/
theorem C3_counterexample_exclusive_truncation :
    generate_target_line "c" [⟨1/66, 0, 0⟩] 100
      = some ([((0 : ℚ), (0 : ℚ)), ((1 : ℚ)/198, 0), ((1 : ℚ)/99, 0)], 4/9801)
    ∧ narrow_target ((1 : ℚ)/66, 0) ((get_direction "c" 100).getD []) = 3
    ∧ ¬ (((1 : ℚ)/66, (0 : ℚ)) ∈
          [((0 : ℚ), (0 : ℚ)), ((1 : ℚ)/198, 0), ((1 : ℚ)/99, 0)])
    ∧ dist2 (0, 0) ((1 : ℚ)/99, 0) ≠ (4 : ℚ)/9801 := by
  refine ⟨by with_unfolding_all rfl, by with_unfolding_all rfl, ?_, ?_⟩
  · with_unfolding_all decide
  · with_unfolding_all decide

/-- C10: when the moving-average filter has not been applied, `get_poses`
silently returns the raw x, y, rmag sequences whatever `use_filtered` says
(identical results for true and false, no failure); the filtered columns are
read only when the trial has been filtered AND `use_filtered` is true. -/
theorem C10_get_poses_unfiltered_fallback (df : PosesDf) :
    (get_poses df false true = get_poses df false false
      ∧ get_poses df false true = some (dropna df.x, dropna df.y, dropna df.rmag))
    ∧ get_poses df true false = some (dropna df.x, dropna df.y, dropna df.rmag)
    ∧ (∀ fx fy fr, df.f_x = some fx → df.f_y = some fy → df.f_rmag = some fr →
        get_poses df true true = some (dropna fx, dropna fy, dropna fr)) := by
  refine ⟨⟨by simp [get_poses], by simp [get_poses]⟩, by simp [get_poses], ?_⟩
  intro fx fy fr h1 h2 h3
  simp [get_poses, h1, h2, h3]

/-- C10 witness: a concrete pose table, with filtered columns present,
exercising both the unfiltered fallback and the filtered read. -/
theorem C10_get_poses_unfiltered_fallback_witness :
    (get_poses ⟨[some 1, none], [some 2], [some 3], some [some 4], some [some 5],
        some [some 6]⟩ false true
      = get_poses ⟨[some 1, none], [some 2], [some 3], some [some 4], some [some 5],
        some [some 6]⟩ false false)
    ∧ get_poses ⟨[some 1, none], [some 2], [some 3], some [some 4], some [some 5],
        some [some 6]⟩ false true = some ([1], [2], [3])
    ∧ get_poses ⟨[some 1, none], [some 2], [some 3], some [some 4], some [some 5],
        some [some 6]⟩ true true = some ([4], [5], [6]) := by
  refine ⟨(C10_get_poses_unfiltered_fallback _).1.1, ?_, ?_⟩
  · rw [(C10_get_poses_unfiltered_fallback _).1.2]
    with_unfolding_all decide
  · rw [(C10_get_poses_unfiltered_fallback _).2.2 [some 4] [some 5] [some 6] rfl rfl rfl]
    with_unfolding_all decide

/-- C4 amended: outlier removal is applied only to tables of more than 10
rows; for larger tables it is the sequential x, y, rmag pass composition; and
one pass keeps exactly the rows whose column value is strictly below the 98th
percentile of the current table (rows equal to the percentile are
discarded). -/
theorem C4_amended_outlier_removal (rows : List RawRow) :
    (rows.length ≤ 10 → remove_outliers rows = rows)
    ∧ (10 < rows.length →
        remove_outliers rows
          = outlierPass RawRow.rmag (outlierPass RawRow.y (outlierPass RawRow.x rows)))
    ∧ (∀ (get : RawRow → ℚ) (rs : List RawRow) (r : RawRow),
        r ∈ outlierPass get rs ↔ r ∈ rs ∧ get r < quantile (98/100) (rs.map get)) := by
  refine ⟨?_, ?_, fun get rs r => mem_outlierPass get rs r⟩
  · intro hle
    unfold remove_outliers
    rw [if_neg (by omega)]
  · intro hgt
    unfold remove_outliers
    rw [if_pos (by omega)]

/-- C4 amended witness: a small table is left untouched, and the
strictly-below characterization at a concrete row. -/
theorem C4_amended_outlier_removal_witness :
    (([] : List RawRow).length ≤ 10 ∧ remove_outliers [] = [])
    ∧ ((⟨0, 0, 0, 0, 5, 0, 0, 0⟩ : RawRow) ∈
          outlierPass RawRow.x [⟨0, 0, 0, 0, 5, 0, 0, 0⟩]
        ↔ (⟨0, 0, 0, 0, 5, 0, 0, 0⟩ : RawRow) ∈ [(⟨0, 0, 0, 0, 5, 0, 0, 0⟩ : RawRow)]
          ∧ (5 : ℚ) < quantile (98/100)
              ([(⟨0, 0, 0, 0, 5, 0, 0, 0⟩ : RawRow)].map RawRow.x)) := by
  refine ⟨⟨by simp, (C4_amended_outlier_removal []).1 (by simp)⟩, ?_⟩
  exact (C4_amended_outlier_removal []).2.2 RawRow.x [⟨0, 0, 0, 0, 5, 0, 0, 0⟩] _

theorem map_round4Row_fixed (X : List RawRow) (hX : ∀ x ∈ X, round4Row x = x) :
    X.map round4Row = X := by
  induction X with
  | nil => rfl
  | cons a l ih =>
    rw [List.map_cons, hX a (List.mem_cons_self a l),
      ih (fun x hx => hX x (List.mem_cons_of_mem a hx))]

/-- C8: with normalization enabled, conditioning maps each raw row to the row
with x = round4(raw_x*1000/span), y = round4(raw_y*1000/depth), and a
rotation magnitude that is only rounded — neither converted to millimeters
nor normalized — and then applies outlier removal to those transformed rows
(the final `df.round(4)` is the identity on them, each being already
rounded). -/
theorem C8_normalization_formula (h : HandInfo) (rows : List RawRow) :
    condition_df h true rows
      = remove_outliers (rows.map (fun raw => round4Row (normRow h (scaleRow raw))))
    ∧ ∀ raw : RawRow,
        (round4Row (normRow h (scaleRow raw))).x = round4 (raw.x * 1000 / h.span)
        ∧ (round4Row (normRow h (scaleRow raw))).y = round4 (raw.y * 1000 / h.depth)
        ∧ (round4Row (normRow h (scaleRow raw))).rmag = round4 raw.rmag := by
  constructor
  · show ((remove_outliers ((rows.map scaleRow).map
        (fun r => round4Row (normRow h r)))).map round4Row) = _
    rw [List.map_map]
    exact map_round4Row_fixed _ (by
      intro x hx
      obtain ⟨raw, _, rfl⟩ := List.mem_map.mp (remove_outliers_subset _ _ hx)
      exact round4Row_round4Row _)
  · intro raw
    exact ⟨rfl, rfl, rfl⟩

theorem catchOnly_of_okOr {α : Type} {k : Exc} {r : Except Exc α} (s : α)
    (h : okOr k r) : catchOnly k r s = .ok (resolveD r s) := by
  match r with
  | .ok v => rfl
  | .error e =>
    have he : e = k := h
    subst he
    simp [catchOnly, resolveD]

theorem catchAll_eq {α : Type} (r : Except Exc α) (s : α) :
    catchAll r s = .ok (resolveD r s) := by
  match r with
  | .ok v => rfl
  | .error e => rfl

theorem update_all_metrics_resolved (name : String) (dist : ℚ) (o : MetricOracle)
    (t_fd r_fd : ℚ) (hf : o.frechet = .ok (t_fd, r_fd))
    (hm : okOr .runtimeWarning o.mvt_efficiency)
    (hx : okOr .runtimeWarning (o.max_error (resolveD o.mvt_efficiency (-1, -1)).2))
    (hr : okOr .indexError o.max_area_region) :
    update_all_metrics name dist o = .ok
      [("trial", .str name), ("dist", .num dist),
       ("t_fd", .num t_fd), ("r_fd", .num r_fd),
       ("max_err", .num (resolveD (o.max_error (resolveD o.mvt_efficiency (-1, -1)).2) 0)),
       ("mvt_eff", .num (resolveD o.mvt_efficiency (-1, -1)).1),
       ("arc_len", .num (resolveD o.mvt_efficiency (-1, -1)).2),
       ("area_btwn", .num (resolveD o.area_btwn (-1))),
       ("max_a_reg", .num (resolveD o.max_area_region (-1, -1)).1),
       ("max_a_loc", .num (resolveD o.max_area_region (-1, -1)).2)] := by
  unfold update_all_metrics
  rw [hf, catchOnly_of_okOr _ hm, catchAll_eq, catchOnly_of_okOr _ hr]
  rcases hmv : resolveD o.mvt_efficiency (-1, -1) with ⟨mv, al⟩
  rcases hmr : resolveD o.max_area_region (-1, -1) with ⟨mr, ml⟩
  rw [hmv] at hx
  dsimp only [bind, Except.bind]
  rw [catchOnly_of_okOr _ (show okOr Exc.runtimeWarning (o.max_error al) from hx)]
  rfl

/-- C2 amended: when the Frechet-distance calculator succeeds and every other
calculator either succeeds or raises exactly the exception kind its `except`
clause catches (RuntimeWarning for movement efficiency and max error,
anything for area-between, IndexError for max-area-region),
`update_all_metrics` returns a record with exactly the ten declared fields in
order, the sentinel -1 substituted for a failed movement efficiency / arc
length / area-between / max-area metric and 0 for a failed max error.  The
Frechet call itself is unguarded — its failure aborts the whole computation
(see the counterexample). -/
theorem C2_amended_guarded_metrics (name : String) (dist : ℚ) (o : MetricOracle)
    (t_fd r_fd : ℚ) (hf : o.frechet = .ok (t_fd, r_fd))
    (hm : okOr .runtimeWarning o.mvt_efficiency)
    (hx : ∀ q, okOr .runtimeWarning (o.max_error q))
    (hr : okOr .indexError o.max_area_region) :
    (update_all_metrics name dist o).map (fun d => d.map Prod.fst)
      = .ok ["trial", "dist", "t_fd", "r_fd", "max_err", "mvt_eff",
             "arc_len", "area_btwn", "max_a_reg", "max_a_loc"]
    ∧ (o.mvt_efficiency = .error .runtimeWarning →
        (update_all_metrics name dist o).map (fun d => d.lookup "mvt_eff")
          = .ok (some (.num (-1)))
        ∧ (update_all_metrics name dist o).map (fun d => d.lookup "arc_len")
          = .ok (some (.num (-1))))
    ∧ (o.max_error (resolveD o.mvt_efficiency (-1, -1)).2 = .error .runtimeWarning →
        (update_all_metrics name dist o).map (fun d => d.lookup "max_err")
          = .ok (some (.num 0)))
    ∧ (∀ e, o.area_btwn = .error e →
        (update_all_metrics name dist o).map (fun d => d.lookup "area_btwn")
          = .ok (some (.num (-1))))
    ∧ (o.max_area_region = .error .indexError →
        (update_all_metrics name dist o).map (fun d => d.lookup "max_a_reg")
          = .ok (some (.num (-1)))
        ∧ (update_all_metrics name dist o).map (fun d => d.lookup "max_a_loc")
          = .ok (some (.num (-1)))) := by
  have key := update_all_metrics_resolved name dist o t_fd r_fd hf hm (hx _) hr
  rw [key]
  refine ⟨rfl, fun hcon => ?_, fun hcon => ?_, fun e hcon => ?_, fun hcon => ?_⟩
  · rw [hcon]
    exact ⟨by simp [Except.map, List.lookup, resolveD], by simp [Except.map, List.lookup, resolveD]⟩
  · rw [hcon]
    simp [Except.map, List.lookup, resolveD]
  · rw [hcon]
    simp [Except.map, List.lookup, resolveD]
  · rw [hcon]
    exact ⟨by simp [Except.map, List.lookup, resolveD], by simp [Except.map, List.lookup, resolveD]⟩

/-- C2 amended witness: a concrete oracle on which the Frechet distance
succeeds and all four guarded metrics raise their catchable exceptions. -/
theorem C2_amended_guarded_metrics_witness :
    (update_all_metrics "sub1_2v2_a_n_1" 5
        ⟨.ok (2, 3), .error .runtimeWarning, fun _ => .error .runtimeWarning,
         .error .other, .error .indexError⟩).map (fun d => d.map Prod.fst)
      = .ok ["trial", "dist", "t_fd", "r_fd", "max_err", "mvt_eff",
             "arc_len", "area_btwn", "max_a_reg", "max_a_loc"]
    ∧ (update_all_metrics "sub1_2v2_a_n_1" 5
        ⟨.ok (2, 3), .error .runtimeWarning, fun _ => .error .runtimeWarning,
         .error .other, .error .indexError⟩).map (fun d => d.lookup "mvt_eff")
      = .ok (some (.num (-1)))
    ∧ (update_all_metrics "sub1_2v2_a_n_1" 5
        ⟨.ok (2, 3), .error .runtimeWarning, fun _ => .error .runtimeWarning,
         .error .other, .error .indexError⟩).map (fun d => d.lookup "max_err")
      = .ok (some (.num 0))
    ∧ (update_all_metrics "sub1_2v2_a_n_1" 5
        ⟨.ok (2, 3), .error .runtimeWarning, fun _ => .error .runtimeWarning,
         .error .other, .error .indexError⟩).map (fun d => d.lookup "area_btwn")
      = .ok (some (.num (-1)))
    ∧ (update_all_metrics "sub1_2v2_a_n_1" 5
        ⟨.ok (2, 3), .error .runtimeWarning, fun _ => .error .runtimeWarning,
         .error .other, .error .indexError⟩).map (fun d => d.lookup "max_a_reg")
      = .ok (some (.num (-1))) := by
  have h := C2_amended_guarded_metrics "sub1_2v2_a_n_1" 5
    ⟨.ok (2, 3), .error .runtimeWarning, fun _ => .error .runtimeWarning,
     .error .other, .error .indexError⟩ 2 3 rfl rfl (fun _ => rfl) rfl
  exact ⟨h.1, (h.2.1 rfl).1, h.2.2.1 rfl, h.2.2.2.1 .other rfl, (h.2.2.2.2 rfl).1⟩

theorem construct_ok_spec (file_name : String) (raw : Option (List RawRow))
    (span depth : ℚ) (angle : Pt → Pt → ℚ) (o : MetricOracle) (dm norm : Bool)
    (trial : AsteriskTrialData)
    (h : construct file_name raw span depth angle o dm norm = .ok trial) :
    ("no_mvt" ∈ trial.labels ↔ trial.total_distance < 1/100)
    ∧ (trial.metrics.isSome = true ↔ (dm = true ∧ "no_mvt" ∉ trial.labels)) := by
  unfold construct at h
  simp only [bind, Except.bind] at h
  split at h
  · exact Except.noConfusion h
  split at h
  · exact Except.noConfusion h
  split at h
  · exact Except.noConfusion h
  split at h
  · exact Except.noConfusion h
  split at h
  · exact Except.noConfusion h
  split at h
  all_goals try split at h
  all_goals try split at h
  all_goals try split at h
  all_goals first
    | exact Except.noConfusion h
    | (cases h
       constructor <;> simp_all)

/-- C6: for a successfully constructed trial, a synthesized total distance
below 0.1 (squared: 1/100) means the trial carries the `no_mvt` label and its
metrics record is left unpopulated (None, not defaulted); with metrics
enabled (the constructor's default) and total distance at least 0.1, the
metrics record is populated synchronously at construction. -/
theorem C6_no_movement_gate (file_name : String) (raw : Option (List RawRow))
    (span depth : ℚ) (angle : Pt → Pt → ℚ) (o : MetricOracle) (dm norm : Bool)
    (trial : AsteriskTrialData)
    (h : construct file_name raw span depth angle o dm norm = .ok trial) :
    (trial.total_distance < 1/100 → "no_mvt" ∈ trial.labels ∧ trial.metrics = none)
    ∧ (dm = true → 1/100 ≤ trial.total_distance → trial.metrics.isSome = true) := by
  obtain ⟨h1, h2⟩ := construct_ok_spec file_name raw span depth angle o dm norm trial h
  constructor
  · intro hlt
    refine ⟨h1.mpr hlt, ?_⟩
    have hno : ¬ trial.metrics.isSome = true := by
      rw [h2]
      rintro ⟨hdm, hnm⟩
      exact hnm (h1.mpr hlt)
    exact Option.not_isSome_iff_eq_none.mp hno
  · intro hdm hge
    rw [h2]
    exact ⟨hdm, fun hm => absurd (h1.mp hm) (not_lt.mpr hge)⟩


set_option maxRecDepth 9000 in
/-- C6 witness: a concrete readable one-row trial whose total distance is
above the no-movement threshold and whose metrics are populated. -/
theorem C6_no_movement_gate_witness :
    construct "sub1_2v2_c_n_1.csv" (some [⟨0, 0, 0, 0, 1/10000, 0, 0, 0⟩]) 1 1
        (fun _ _ => 0) oracleOk true true = .ok trialC6
    ∧ 1/100 ≤ trialC6.total_distance
    ∧ trialC6.metrics.isSome = true := by
  have hc : construct "sub1_2v2_c_n_1.csv" (some [⟨0, 0, 0, 0, 1/10000, 0, 0, 0⟩]) 1 1
      (fun _ _ => 0) oracleOk true true = .ok trialC6 := by
    with_unfolding_all rfl
  have hge : 1/100 ≤ trialC6.total_distance := by
    with_unfolding_all decide
  exact ⟨hc, hge,
    (C6_no_movement_gate _ _ _ _ _ _ _ _ trialC6 hc).2 rfl hge⟩

theorem deviation_loop_iff (angle : Pt → Pt → ℚ)
    (hrange : ∀ p q, 0 ≤ angle p q ∧ angle p q ≤ 180) (lastT : Pt)
    (l : List (ℚ × ℚ)) :
    deviation_loop angle lastT 40 l = true ↔
      ∃ xy ∈ l, ¬ xy.1 * xy.1 + xy.2 * xy.2 < 1/100 ∧ 40 < angle lastT xy := by
  induction l with
  | nil => simp [deviation_loop]
  | cons p rest ih =>
    obtain ⟨x, y⟩ := p
    rw [deviation_loop]
    split
    next h0 =>
      rw [ih]
      constructor
      · rintro ⟨xy, hm, hc⟩
        exact ⟨xy, List.mem_cons_of_mem _ hm, hc⟩
      · rintro ⟨xy, hm, hc⟩
        rcases List.mem_cons.mp hm with heq | hm2
        · exfalso
          apply hc.1
          rw [heq, h0.1, h0.2]
          norm_num
        · exact ⟨xy, hm2, hc⟩
    next h0 =>
      split
      next hmag =>
        rw [ih]
        constructor
        · rintro ⟨xy, hm, hc⟩
          exact ⟨xy, List.mem_cons_of_mem _ hm, hc⟩
        · rintro ⟨xy, hm, hc⟩
          rcases List.mem_cons.mp hm with heq | hm2
          · exact absurd (heq ▸ hmag) hc.1
          · exact ⟨xy, hm2, hc⟩
      next hmag =>
        split
        next hang =>
          simp only [true_iff]
          refine ⟨(x, y), List.mem_cons_self _ _, hmag, ?_⟩
          rcases hang with hgt | hlt
          · exact hgt
          · exact absurd hlt (not_lt.mpr (by linarith [(hrange lastT (x, y)).1]))
        next hang =>
          rw [ih]
          constructor
          · rintro ⟨xy, hm, hc⟩
            exact ⟨xy, List.mem_cons_of_mem _ hm, hc⟩
          · rintro ⟨xy, hm, hc⟩
            rcases List.mem_cons.mp hm with heq | hm2
            · exact absurd (Or.inl (heq ▸ hc.2)) hang
            · exact ⟨xy, hm2, hc⟩

/-- C7: for any angle primitive with the spec's range [0, 180] degrees, the
deviation screen returns true iff some trajectory point after the first with
magnitude at least 0.1 (squared: at least 1/100) makes an angle above the
default 40-degree threshold with the target path's terminal point; and the
resulting label is advisory — a constructed trial flagged `deviation` but not
`no_mvt` still gets its metrics computed. -/
theorem C7_deviation_screen (angle : Pt → Pt → ℚ)
    (hrange : ∀ p q, 0 ≤ angle p q ∧ angle p q ≤ 180) :
    (∀ (target : List Pt) (lastT : Pt) (px py : List ℚ),
        target.getLast? = some lastT →
        (assess_path_deviation angle target px py 40 = some true ↔
          ∃ xy ∈ px.tail.zip py.tail,
            ¬ xy.1 * xy.1 + xy.2 * xy.2 < 1/100 ∧ 40 < angle lastT xy))
    ∧ (∀ (file_name : String) (raw : Option (List RawRow)) (span depth : ℚ)
        (o : MetricOracle) (dm norm : Bool) (trial : AsteriskTrialData),
        construct file_name raw span depth angle o dm norm = .ok trial →
        "deviation" ∈ trial.labels → "no_mvt" ∉ trial.labels → dm = true →
        trial.metrics.isSome = true) := by
  constructor
  · intro target lastT px py hl
    unfold assess_path_deviation
    rw [hl]
    simp only [Option.some.injEq]
    exact deviation_loop_iff angle hrange lastT _
  · intro fn raw span depth o dm norm trial h hdev hnm hdm
    rw [(construct_ok_spec fn raw span depth angle o dm norm trial h).2]
    exact ⟨hdm, hnm⟩


set_option maxRecDepth 9000 in
theorem C7_deviation_screen_witness :
    assess_path_deviation (fun _ _ => (90 : ℚ)) [((1 : ℚ)/2, 0)] [0, 1/2] [0, 0] 40
      = some true
    ∧ construct "sub1_2v2_c_n_1.csv"
        (some [⟨0, 0, 0, 0, 1/10000, 0, 0, 0⟩, ⟨0, 0, 0, 0, 1/10000, 0, 0, 0⟩]) 1 1
        (fun _ _ => 90) oracleOk true true = .ok trialC7
    ∧ "deviation" ∈ trialC7.labels
    ∧ "no_mvt" ∉ trialC7.labels
    ∧ trialC7.metrics.isSome = true := by
  have hr : ∀ p q : Pt, 0 ≤ (fun _ _ => (90 : ℚ)) p q ∧ (fun _ _ => (90 : ℚ)) p q ≤ 180 :=
    fun _ _ => ⟨by norm_num, by norm_num⟩
  have hc : construct "sub1_2v2_c_n_1.csv"
      (some [⟨0, 0, 0, 0, 1/10000, 0, 0, 0⟩, ⟨0, 0, 0, 0, 1/10000, 0, 0, 0⟩]) 1 1
      (fun _ _ => 90) oracleOk true true = .ok trialC7 := by
    with_unfolding_all rfl
  have hdev : "deviation" ∈ trialC7.labels := by
    with_unfolding_all decide
  have hnm : "no_mvt" ∉ trialC7.labels := by
    with_unfolding_all decide
  refine ⟨?_, hc, hdev, hnm, ?_⟩
  · refine ((C7_deviation_screen _ hr).1 [((1 : ℚ)/2, 0)] ((1 : ℚ)/2, 0) [0, 1/2] [0, 0]
      rfl).mpr ?_
    refine ⟨((1 : ℚ)/2, 0), by simp, by norm_num, by norm_num⟩
  · exact (C7_deviation_screen _ hr).2 _ _ _ _ _ _ _ trialC7 hc hdev hnm rfl

theorem splitCh_ne_nil (c : Char) (l : List Char) : splitCh c l ≠ [] := by
  cases l with
  | nil => simp [splitCh]
  | cons x xs =>
    rw [splitCh]
    split <;> simp

theorem splitCh_not_mem (c : Char) (l : List Char) (h : c ∉ l) : splitCh c l = [l] := by
  induction l with
  | nil => rfl
  | cons x xs ih =>
    have hx : ¬ x = c := fun hc => h (hc ▸ List.mem_cons_self x xs)
    have hxs : c ∉ xs := fun hm => h (List.mem_cons_of_mem x hm)
    rw [splitCh, if_neg hx, ih hxs]
    rfl

theorem splitCh_append (c : Char) (a b : List Char) (h : c ∉ a) :
    splitCh c (a ++ c :: b) = a :: splitCh c b := by
  induction a with
  | nil =>
    simp only [List.nil_append]
    rw [splitCh, if_pos rfl]
  | cons x xs ih =>
    have hx : ¬ x = c := fun hc => h (hc ▸ List.mem_cons_self x xs)
    have hxs : c ∉ xs := fun hm => h (List.mem_cons_of_mem x hm)
    rw [List.cons_append, splitCh, if_neg hx, ih hxs]
    rfl

theorem parse_generate_roundtrip (s h t r n : String)
    (hs : '_' ∉ s.data) (hh : '_' ∉ h.data) (ht : '_' ∉ t.data) (hr : '_' ∉ r.data)
    (hn : '_' ∉ n.data) (hn2 : '.' ∉ n.data) :
    parse_name (mk_file_name s h t r n) = some (s, h, t, r, n) := by
  have hdata : (mk_file_name s h t r n).data
      = s.data ++ '_' :: (h.data ++ '_' :: (t.data ++ '_' :: (r.data ++ '_' ::
        (n.data ++ '.' :: ['c', 's', 'v'])))) := by
    simp [mk_file_name, generate_name]
  have hlast : '_' ∉ n.data ++ '.' :: ['c', 's', 'v'] := by
    intro hmem
    rcases List.mem_append.mp hmem with hm | hm
    · exact hn hm
    · simp at hm
  have hsplit : splitCh '_' (mk_file_name s h t r n).data
      = [s.data, h.data, t.data, r.data, n.data ++ '.' :: ['c', 's', 'v']] := by
    rw [hdata, splitCh_append _ _ _ hs, splitCh_append _ _ _ hh,
      splitCh_append _ _ _ ht, splitCh_append _ _ _ hr, splitCh_not_mem _ _ hlast]
  have hdot : splitCh '.' (n.data ++ '.' :: ['c', 's', 'v']) = [n.data, ['c', 's', 'v']] := by
    rw [splitCh_append _ _ _ hn2, splitCh_not_mem _ _ (by simp)]
  unfold parse_name pySplit
  rw [hsplit]
  simp only [List.map_cons, List.map_nil]
  show (match (splitCh '.' (n.data ++ '.' :: ['c', 's', 'v'])).map String.mk with
    | [n2, _ext] => some (String.mk s.data, String.mk h.data, String.mk t.data,
        String.mk r.data, n2)
    | _ => none) = some (s, h, t, r, n)
  rw [hdot]
  rfl

/-- C9: for every identity tuple drawn from the naming option lists, parsing
the identity back out of the generated file name and regenerating the file
name from the parsed identity reproduces the original string. -/
theorem C9_name_roundtrip (s h t r n : String)
    (hs : s ∈ subjects_options) (hh : h ∈ hands_options)
    (ht : t ∈ translations_all_options)
    (hr : r ∈ rotations_options ++ rotations_n_trans_options)
    (hn : n ∈ numbers_options) :
    (parse_name (mk_file_name s h t r n)).map
        (fun q => mk_file_name q.1 q.2.1 q.2.2.1 q.2.2.2.1 q.2.2.2.2)
      = some (mk_file_name s h t r n) := by
  have clean : ∀ x : String,
      x ∈ subjects_options ∨ x ∈ hands_options ∨ x ∈ translations_all_options ∨
        x ∈ rotations_options ++ rotations_n_trans_options ∨ x ∈ numbers_options →
      '_' ∉ x.data ∧ '.' ∉ x.data := by
    intro x hx
    rcases hx with hx | hx | hx | hx | hx <;>
      · fin_cases hx <;> exact ⟨by decide, by decide⟩
  rw [parse_generate_roundtrip s h t r n
    (clean s (Or.inl hs)).1 (clean h (Or.inr (Or.inl hh))).1
    (clean t (Or.inr (Or.inr (Or.inl ht)))).1
    (clean r (Or.inr (Or.inr (Or.inr (Or.inl hr))))).1
    (clean n (Or.inr (Or.inr (Or.inr (Or.inr hn))))).1
    (clean n (Or.inr (Or.inr (Or.inr (Or.inr hn))))).2]
  rfl

/-- C9 witness: the round trip at one concrete valid identity tuple. -/
theorem C9_name_roundtrip_witness :
    (parse_name (mk_file_name "sub1" "2v2" "a" "n" "1")).map
        (fun q => mk_file_name q.1 q.2.1 q.2.2.1 q.2.2.2.1 q.2.2.2.2)
      = some (mk_file_name "sub1" "2v2" "a" "n" "1") := by
  exact C9_name_roundtrip "sub1" "2v2" "a" "n" "1" (by decide) (by decide) (by decide)
    (by decide) (by decide)

theorem narrowAux_spec (p : Pt) (l : List Pt) : ∀ (i : ℕ) (acc : ℕ × ℚ),
    (narrowAux p l i acc).2 ≤ acc.2
    ∧ (∀ q ∈ l, (narrowAux p l i acc).2 ≤ dist2 p q)
    ∧ (narrowAux p l i acc = acc
        ∨ ∃ j, j < l.length
            ∧ narrowAux p l i acc = (i + j, dist2 p (l.getD j (0, 0)))) := by
  induction l with
  | nil =>
    intro i acc
    exact ⟨le_refl _, by simp, Or.inl rfl⟩
  | cons q qs ih =>
    intro i acc
    rw [narrowAux]
    split
    next hlt =>
      obtain ⟨ih1, ih2, ih3⟩ := ih (i + 1) (i, dist2 p q)
      refine ⟨le_trans ih1 (le_of_lt hlt), ?_, ?_⟩
      · intro x hx
        rcases List.mem_cons.mp hx with rfl | hx2
        · exact ih1
        · exact ih2 x hx2
      · rcases ih3 with heq | ⟨j, hj, heq⟩
        · refine Or.inr ⟨0, by simp, ?_⟩
          rw [heq]
          simp
        · refine Or.inr ⟨j + 1, by simpa using hj, ?_⟩
          rw [heq, Prod.mk.injEq]
          exact ⟨by omega, by simp⟩
    next hge =>
      obtain ⟨ih1, ih2, ih3⟩ := ih (i + 1) acc
      refine ⟨ih1, ?_, ?_⟩
      · intro x hx
        rcases List.mem_cons.mp hx with rfl | hx2
        · exact le_trans ih1 (not_lt.mp hge)
        · exact ih2 x hx2
      · rcases ih3 with heq | ⟨j, hj, heq⟩
        · exact Or.inl heq
        · refine Or.inr ⟨j + 1, by simpa using hj, ?_⟩
          rw [heq, Prod.mk.injEq]
          exact ⟨by omega, by simp⟩

theorem narrow_target_spec (p : Pt) (line : List Pt) (hne : line ≠ []) :
    narrow_target p line < line.length
    ∧ ∀ j, j < line.length →
        dist2 p (line.getD (narrow_target p line) (0, 0)) ≤ dist2 p (line.getD j (0, 0)) := by
  match line with
  | [] => exact absurd rfl hne
  | q :: qs =>
    rw [narrow_target]
    obtain ⟨h1, h2, h3⟩ := narrowAux_spec p qs 1 (0, dist2 p q)
    have hval : dist2 p ((q :: qs).getD (narrowAux p qs 1 (0, dist2 p q)).1 (0, 0))
        = (narrowAux p qs 1 (0, dist2 p q)).2 := by
      rcases h3 with heq | ⟨j, hj, heq⟩
      · rw [heq]
        simp
      · rw [heq, Nat.add_comm 1 j]
        simp [List.getD_cons_succ]
    have hlen : (narrowAux p qs 1 (0, dist2 p q)).1 < (q :: qs).length := by
      rcases h3 with heq | ⟨j, hj, heq⟩
      · rw [heq]
        simp
      · rw [heq]
        simp only [List.length_cons]
        omega
    refine ⟨hlen, fun j hj => ?_⟩
    rw [hval]
    match j with
    | 0 => simpa using h1
    | j + 1 =>
      have hjq : ((q :: qs).getD (j + 1) (0, 0)) = qs.getD j (0, 0) := by simp
      rw [hjq]
      have hjlt : j < qs.length := by simpa using hj
      have : qs.getD j (0, 0) ∈ qs := by
        rw [List.getD_eq_getElem _ _ hjlt]
        exact List.getElem_mem hjlt
      exact h2 _ this

theorem gtl_shape (dir : String) (poses : List Pose) (path : List Pt) (d : ℚ) (n : ℕ)
    (h : generate_target_line dir poses n = some (path, d)) :
    ∃ ideal last, get_direction dir n = some ideal ∧ poses.getLast? = some last ∧
      ((narrow_target (last.x, last.y) ideal ≠ 0
          ∧ path = ideal.take (narrow_target (last.x, last.y) ideal)
          ∧ ∃ pt, ideal[narrow_target (last.x, last.y) ideal + 1]? = some pt
              ∧ d = dist2 (0, 0) pt)
        ∨ (narrow_target (last.x, last.y) ideal = 0 ∧ path = ideal.take 2
          ∧ ∃ pt, ideal[1]? = some pt ∧ d = dist2 (0, 0) pt)) := by
  unfold generate_target_line at h
  cases hgd : get_direction dir n with
  | none =>
    simp only [hgd] at h
    exact Option.noConfusion h
  | some ideal =>
    simp only [hgd] at h
    cases hl : poses.getLast? with
    | none =>
      simp only [hl] at h
      exact Option.noConfusion h
    | some last =>
      simp only [hl] at h
      by_cases hk : narrow_target (last.x, last.y) ideal = 0
      · rw [if_neg (by simp [hk])] at h
        cases hpt : ideal[1]? with
        | none =>
          rw [hpt] at h
          exact Option.noConfusion h
        | some pt =>
          rw [hpt, Option.some.injEq, Prod.mk.injEq] at h
          exact ⟨ideal, last, rfl, rfl, Or.inr ⟨hk, h.1.symm, pt, hpt, h.2.symm⟩⟩
      · rw [if_pos hk] at h
        cases hpt : ideal[narrow_target (last.x, last.y) ideal + 1]? with
        | none =>
          rw [hpt] at h
          exact Option.noConfusion h
        | some pt =>
          rw [hpt, Option.some.injEq, Prod.mk.injEq] at h
          exact ⟨ideal, last, rfl, rfl, Or.inl ⟨hk, h.1.symm, pt, hpt, h.2.symm⟩⟩

set_option maxRecDepth 9000 in
theorem get_direction100 (dir : String) (hdir : dir ∈ direction_codes) :
    ∃ ideal, get_direction dir 100 = some ideal
      ∧ ideal.length = 100 ∧ ideal.head? = some ((0 : ℚ), (0 : ℚ)) := by
  fin_cases hdir <;>
    exact ⟨_, rfl, by with_unfolding_all decide, by with_unfolding_all decide⟩

/-- C5 amended: for every direction code, a successfully synthesized target
path starts at exactly (0,0) and is nonempty; it has at least 2 points except
in the one truncation case the counterexample exhibits (narrow-target index
1), where it is exactly the singleton [(0,0)]. -/
theorem C5_amended_target_path_invariant (dir : String) (hdir : dir ∈ direction_codes)
    (poses : List Pose) (path : List Pt) (d : ℚ)
    (hres : generate_target_line dir poses 100 = some (path, d)) :
    path.head? = some ((0 : ℚ), (0 : ℚ))
    ∧ 1 ≤ path.length
    ∧ (path.length < 2 → path = [((0 : ℚ), (0 : ℚ))]) := by
  obtain ⟨ideal, last, hgd, hlast, hcase⟩ := gtl_shape dir poses path d 100 hres
  obtain ⟨ideal, hgd2, hlen, hhead⟩ := get_direction100 dir hdir
  rw [hgd] at hgd2
  injection hgd2 with he
  subst he
  rcases hcase with ⟨hk, hpath, pt, hpt, hd⟩ | ⟨hk, hpath, pt, hpt, hd⟩
  · have hk1 : 1 ≤ narrow_target (last.x, last.y) ideal := Nat.one_le_iff_ne_zero.mpr hk
    have hlen_path : path.length = min (narrow_target (last.x, last.y) ideal) 100 := by
      rw [hpath, List.length_take, hlen]
    refine ⟨?_, ?_, ?_⟩
    · rw [hpath, head?_take_pos _ _ (by omega)]
      exact hhead
    · omega
    · intro hlt
      have hk_eq : narrow_target (last.x, last.y) ideal = 1 := by omega
      rw [hpath, hk_eq]
      match ideal, hhead with
      | p :: rest, hh =>
        injection hh with hh2
        rw [hh2]
        rfl
  · have hlen_path : path.length = 2 := by
      rw [hpath, List.length_take, hlen]
      omega
    refine ⟨?_, by omega, fun hlt => absurd hlt (by omega)⟩
    rw [hpath, head?_take_pos _ _ (by omega)]
    exact hhead

set_option maxRecDepth 9000 in
/-- C5 amended witness: the invariant at a concrete direction-c trial. -/
theorem C5_amended_target_path_invariant_witness :
    generate_target_line "c" [⟨(1 : ℚ)/66, 0, 0⟩] 100
      = some ([((0 : ℚ), (0 : ℚ)), ((1 : ℚ)/198, 0), ((1 : ℚ)/99, 0)], (4 : ℚ)/9801)
    ∧ ([((0 : ℚ), (0 : ℚ)), ((1 : ℚ)/198, 0), ((1 : ℚ)/99, 0)] : List Pt).head?
        = some ((0 : ℚ), (0 : ℚ))
    ∧ 1 ≤ ([((0 : ℚ), (0 : ℚ)), ((1 : ℚ)/198, 0), ((1 : ℚ)/99, 0)] : List Pt).length := by
  have hres : generate_target_line "c" [⟨(1 : ℚ)/66, 0, 0⟩] 100
      = some ([((0 : ℚ), (0 : ℚ)), ((1 : ℚ)/198, 0), ((1 : ℚ)/99, 0)], (4 : ℚ)/9801) := by
    with_unfolding_all rfl
  have hmain := C5_amended_target_path_invariant "c" (by decide) [⟨(1 : ℚ)/66, 0, 0⟩]
    [((0 : ℚ), (0 : ℚ)), ((1 : ℚ)/198, 0), ((1 : ℚ)/99, 0)] ((4 : ℚ)/9801) hres
  exact ⟨hres, hmain.1, hmain.2.1⟩

/-- C3 amended: for every direction and nonempty trajectory, target synthesis
computes the narrow-target index k — a first index of an ideal-path point of
minimal Euclidean distance to the last pose — and, when k is nonzero,
truncates the 100-sample ideal path END-exclusively to its first k points
while returning the straight-line distance from the origin to the ideal-path
point at index k+1 (not to the truncated path's last point); when k = 0 it
falls back to the first 2 points with the distance to ideal-path point 1. -/
theorem C3_amended_target_synthesis (dir : String) (hdir : dir ∈ direction_codes)
    (poses : List Pose) (path : List Pt) (d : ℚ)
    (hres : generate_target_line dir poses 100 = some (path, d)) :
    ∃ ideal last, get_direction dir 100 = some ideal ∧ poses.getLast? = some last
      ∧ ideal.length = 100
      ∧ (narrow_target (last.x, last.y) ideal < 100
        ∧ ∀ j, j < 100 →
            dist2 (last.x, last.y) (ideal.getD (narrow_target (last.x, last.y) ideal) (0, 0))
              ≤ dist2 (last.x, last.y) (ideal.getD j (0, 0)))
      ∧ ((narrow_target (last.x, last.y) ideal ≠ 0
          ∧ path = ideal.take (narrow_target (last.x, last.y) ideal)
          ∧ ∃ pt, ideal[narrow_target (last.x, last.y) ideal + 1]? = some pt
              ∧ d = dist2 (0, 0) pt)
        ∨ (narrow_target (last.x, last.y) ideal = 0 ∧ path = ideal.take 2
          ∧ ∃ pt, ideal[1]? = some pt ∧ d = dist2 (0, 0) pt)) := by
  obtain ⟨ideal, last, hgd, hlast, hcase⟩ := gtl_shape dir poses path d 100 hres
  obtain ⟨ideal2, hgd2, hlen, hhead⟩ := get_direction100 dir hdir
  rw [hgd] at hgd2
  injection hgd2 with he
  subst he
  have hne : ideal ≠ [] := by
    intro h0
    rw [h0] at hlen
    simp at hlen
  obtain ⟨hklt, hmin⟩ := narrow_target_spec (last.x, last.y) ideal hne
  rw [hlen] at hklt
  refine ⟨ideal, last, hgd, hlast, hlen, ⟨hklt, fun j hj => hmin j (by omega)⟩, hcase⟩

set_option maxRecDepth 9000 in
/-- C3 amended witness: the synthesis characterization at a concrete
direction-c trial whose last pose sits exactly on ideal-path point 3. -/
theorem C3_amended_target_synthesis_witness :
    generate_target_line "c" [⟨(1 : ℚ)/66, 0, 0⟩] 100
      = some ([((0 : ℚ), (0 : ℚ)), ((1 : ℚ)/198, 0), ((1 : ℚ)/99, 0)], (4 : ℚ)/9801)
    ∧ ∃ ideal last, get_direction "c" 100 = some ideal
      ∧ ([⟨(1 : ℚ)/66, 0, 0⟩] : List Pose).getLast? = some last
      ∧ ideal.length = 100
      ∧ (narrow_target (last.x, last.y) ideal < 100
        ∧ ∀ j, j < 100 →
            dist2 (last.x, last.y) (ideal.getD (narrow_target (last.x, last.y) ideal) (0, 0))
              ≤ dist2 (last.x, last.y) (ideal.getD j (0, 0)))
      ∧ ((narrow_target (last.x, last.y) ideal ≠ 0
          ∧ ([((0 : ℚ), (0 : ℚ)), ((1 : ℚ)/198, 0), ((1 : ℚ)/99, 0)] : List Pt)
              = ideal.take (narrow_target (last.x, last.y) ideal)
          ∧ ∃ pt, ideal[narrow_target (last.x, last.y) ideal + 1]? = some pt
              ∧ (4 : ℚ)/9801 = dist2 (0, 0) pt)
        ∨ (narrow_target (last.x, last.y) ideal = 0
          ∧ ([((0 : ℚ), (0 : ℚ)), ((1 : ℚ)/198, 0), ((1 : ℚ)/99, 0)] : List Pt)
              = ideal.take 2
          ∧ ∃ pt, ideal[1]? = some pt ∧ (4 : ℚ)/9801 = dist2 (0, 0) pt)) := by
  have hres : generate_target_line "c" [⟨(1 : ℚ)/66, 0, 0⟩] 100
      = some ([((0 : ℚ), (0 : ℚ)), ((1 : ℚ)/198, 0), ((1 : ℚ)/99, 0)], (4 : ℚ)/9801) := by
    with_unfolding_all rfl
  exact ⟨hres, C3_amended_target_synthesis "c" (by decide) [⟨(1 : ℚ)/66, 0, 0⟩]
    [((0 : ℚ), (0 : ℚ)), ((1 : ℚ)/198, 0), ((1 : ℚ)/99, 0)] ((4 : ℚ)/9801) hres⟩
